import Mathlib

/-!
Shallow embedding of the weapon-control core of this repository:
the weapon control state machine (WeaponBase), the missile and mine
engagement managers, the mine drop-plan service, and the launch-tube
manager's emergency stop.  Machine doubles are modelled as rationals;
blocking cancellation-polled sleeps are modelled by the observable
outcome of the poll (whether the token was seen cancelled), which is
the only part of the sleep the surrounding code depends on.
-/

namespace WeaponControl

/-- Control states of a weapon (EN_WPN_CTRL_STATE). -/
inductive CtrlState
  | OFF
  | POC
  | ON
  | RTL
  | LAUNCH
  | POST_LAUNCH
  | ABORT
deriving DecidableEq, Repr

/-- The static transition map s_defaultTransitionMap of WeaponBase:
for each source state, the list of admissible target states. -/
def transitionTargets : CtrlState → List CtrlState
  | .OFF => [.ON]
  | .ON => [.OFF]
  | .RTL => [.LAUNCH, .OFF]
  | .LAUNCH => [.ABORT]
  | .ABORT => [.OFF]
  | .POST_LAUNCH => [.OFF]
  | .POC => []

/-- WeaponBase::isValidTransition: membership of the target in the
transition map entry of the source. -/
def isValidTransition (src dst : CtrlState) : Bool :=
  decide (dst ∈ transitionTargets src)

/-- StateToString from CommonTypes. -/
def stateToString : CtrlState → String
  | .OFF => "OFF"
  | .POC => "POC"
  | .ON => "ON"
  | .RTL => "RTL"
  | .LAUNCH => "LAUNCH"
  | .POST_LAUNCH => "POST_LAUNCH"
  | .ABORT => "ABORT"

/-- One launch step (struct LaunchStep): a description and a duration
in seconds. -/
structure LaunchStep where
  description : String
  duration : ℚ
deriving DecidableEq, Repr

/-- The observable behaviour of a caller-supplied cancellation token
during one requestStateChange call: whether it is already cancelled
when it is stored as the current-operation token, whether a
cancellation is observed by some poll of the power-on-check wait, and
whether a cancellation is observed at launch step i (covering both the
pre-step isCancelled check and the polls inside
sleepWithCancellationCheck, which lead to the same branch). -/
structure TokenBehavior where
  initialCancelled : Bool
  pocCancelled : Bool
  stepCancelled : Nat → Bool

/-- Externally visible events of a weapon operation: a cancel() call on
the current-operation token, a committed state change (the
notifyStateChanged observer call fired by setState when the state
actually changed), and a launch-status observer notification. -/
inductive WeaponEvent
  | cancelCurrentToken
  | stateCommit (src dst : CtrlState)
  | launchNotify (launched : Bool)
deriving DecidableEq, Repr

/-- Result<void> of the source: success, or failure with a message. -/
inductive OpResult
  | success
  | failure (msg : String)
deriving DecidableEq, Repr

/-- OpResult.isSuccess mirrors Result<void>::isSuccess. -/
def OpResult.isSuccess : OpResult → Bool
  | .success => true
  | .failure _ => false

/-- The default three launch steps set in the WeaponBase constructor. -/
def defaultLaunchSteps : List LaunchStep :=
  [⟨"Power On Check", 1⟩, ⟨"System Verification", 1⟩, ⟨"Launch Sequence", 1⟩]

/-- The mutable state of a WeaponBase object: current control state,
launched and fire-solution-ready flags, the cancelled flag of the
current-operation token (as driven by the weapon's own cancel() calls
and token assignments), the power-on delay and the launch steps. -/
structure WeaponState where
  state : CtrlState
  launched : Bool
  fireSolutionReady : Bool
  curTokenCancelled : Bool
  onDelay : ℚ
  launchSteps : List LaunchStep
deriving DecidableEq, Repr

/-- A fresh WeaponBase as built by the constructor: state OFF, not
launched, no fire solution, default 3.0 s power-on delay and the
default launch steps. -/
def initialWeapon : WeaponState :=
  { state := .OFF
    launched := false
    fireSolutionReady := false
    curTokenCancelled := false
    onDelay := 3
    launchSteps := defaultLaunchSteps }

/-- WeaponBase::setState: exchange the current state and notify the
observers when the state actually changed. -/
def setState (w : WeaponState) (n : CtrlState) : WeaponState × List WeaponEvent :=
  let old := w.state
  ({ w with state := n }, if old = n then [] else [.stateCommit old n])

/-- WeaponBase::setLaunched: exchange the launched flag; on a change,
notify the launch observers and, when newly launched, move to
POST_LAUNCH via setState. -/
def setLaunched (w : WeaponState) (b : Bool) : WeaponState × List WeaponEvent :=
  let old := w.launched
  let w1 := { w with launched := b }
  if old = b then (w1, [])
  else if b then
    let out := setState w1 .POST_LAUNCH
    (out.1, .launchNotify b :: out.2)
  else (w1, [.launchNotify b])

/-- WeaponBase::checkInterlockConditions: the base interlock is the
fire-solution-ready flag. -/
def checkInterlockConditions (w : WeaponState) : Bool :=
  w.fireSolutionReady

/-- WeaponBase::processAbort: cancel the current-operation token, then
commit the ABORT state and report success. -/
def processAbort (w : WeaponState) : OpResult × WeaponState × List WeaponEvent :=
  let w1 := { w with curTokenCancelled := true }
  let out := setState w1 .ABORT
  (.success, out.1, .cancelCurrentToken :: out.2)

/-- WeaponBase::processTurnOff: cancel the current-operation token,
commit OFF, report success. -/
def processTurnOff (w : WeaponState) : OpResult × WeaponState × List WeaponEvent :=
  let w1 := { w with curTokenCancelled := true }
  let out := setState w1 .OFF
  (.success, out.1, .cancelCurrentToken :: out.2)

/-- WeaponBase::processTurnOn: commit the transient POC state, run the
cancellation-polled wait of onDelay seconds; if a cancellation is
observed, commit OFF and fail with the power-on-check message,
otherwise commit ON and succeed. -/
def processTurnOn (w : WeaponState) (tok : TokenBehavior) :
    OpResult × WeaponState × List WeaponEvent :=
  let p := setState w .POC
  if tok.pocCancelled then
    let q := setState p.1 .OFF
    (.failure "Power-on check cancelled", q.1, p.2 ++ q.2)
  else
    let q := setState p.1 .ON
    (.success, q.1, p.2 ++ q.2)

/-- The launch-step loop of WeaponBase::processLaunch, with the index
of the current step threaded through: at each step, a cancellation
observed by the pre-step check or the polled sleep commits ABORT and
fails; when every step completed, setLaunched(true) runs. -/
def runLaunchSteps (sched : Nat → Bool) :
    WeaponState → List LaunchStep → Nat → OpResult × WeaponState × List WeaponEvent
  | w, [], _ =>
    let out := setLaunched w true
    (.success, out.1, out.2)
  | w, _ :: rest, i =>
    if sched i then
      let out := setState w .ABORT
      (.failure "Launch sequence aborted", out.1, out.2)
    else
      runLaunchSteps sched w rest (i + 1)

/-- WeaponBase::processLaunch: commit LAUNCH, then run the steps. -/
def processLaunch (w : WeaponState) (tok : TokenBehavior) :
    OpResult × WeaponState × List WeaponEvent :=
  let p := setState w .LAUNCH
  let q := runLaunchSteps tok.stepCancelled p.1 p.1.launchSteps 0
  (q.1, q.2.1, p.2 ++ q.2.2)

/-- WeaponBase::requestStateChange.  ABORT is special-cased before the
transition-table check: it cancels the current-operation token and
runs processAbort.  Any other target is first validated against the
transition map; on acceptance the caller's token replaces the
current-operation token and the per-target handler runs (the default
branch of the switch commits the target directly). -/
def requestStateChange (w : WeaponState) (newState : CtrlState) (tok : TokenBehavior) :
    OpResult × WeaponState × List WeaponEvent :=
  let currentState := w.state
  if newState = .ABORT then
    let w1 := { w with curTokenCancelled := true }
    let out := processAbort w1
    (out.1, out.2.1, .cancelCurrentToken :: out.2.2)
  else if isValidTransition currentState newState = false then
    (.failure ("Invalid transition from " ++ stateToString currentState ++
        " to " ++ stateToString newState), w, [])
  else
    let w1 := { w with curTokenCancelled := tok.initialCancelled }
    match newState with
    | .OFF => processTurnOff w1
    | .ON => processTurnOn w1 tok
    | .LAUNCH => processLaunch w1 tok
    | _ =>
      let out := setState w1 newState
      (.success, out.1, out.2)

/-- WeaponBase::update (the periodic tick): auto-transition ON to RTL
when the interlock holds, and RTL back to ON when it does not. -/
def update (w : WeaponState) : WeaponState × List WeaponEvent :=
  if w.state = .ON then
    if checkInterlockConditions w then setState w .RTL else (w, [])
  else if w.state = .RTL then
    if checkInterlockConditions w = false then setState w .ON else (w, [])
  else (w, [])

/-- WeaponBase::reset: store OFF directly (bypassing setState, so no
observer commit), clear the flags and cancel the in-flight token. -/
def reset (w : WeaponState) : WeaponState × List WeaponEvent :=
  ({ w with
      state := .OFF
      launched := false
      fireSolutionReady := false
      curTokenCancelled := true },
   [.cancelCurrentToken])

/-- WeaponBase::setFireSolutionReady. -/
def setFireSolutionReady (w : WeaponState) (b : Bool) : WeaponState :=
  { w with fireSolutionReady := b }

/-- The externally invokable weapon operations considered for the
reachability invariant. -/
inductive WOp
  | request (target : CtrlState) (tok : TokenBehavior)
  | tickUpdate
  | opSetLaunched (b : Bool)
  | opReset
  | opSetFireSolutionReady (b : Bool)

/-- One weapon operation, discarding the Result value and keeping the
state and the published events. -/
def stepOp (w : WeaponState) : WOp → WeaponState × List WeaponEvent
  | .request target tok =>
    let out := requestStateChange w target tok
    (out.2.1, out.2.2)
  | .tickUpdate => update w
  | .opSetLaunched b => setLaunched w b
  | .opReset => reset w
  | .opSetFireSolutionReady b => (setFireSolutionReady w b, [])

/-- A sequence of weapon operations, accumulating all events. -/
def runOps : WeaponState → List WOp → WeaponState × List WeaponEvent
  | w, [] => (w, [])
  | w, op :: ops =>
    let p := stepOp w op
    let q := runOps p.1 ops
    (q.1, p.2 ++ q.2)

/-- A token that is never cancelled. -/
def idleToken : TokenBehavior :=
  ⟨false, false, fun _ => false⟩

/-- The set of committed transitions the code can actually produce:
the transition table, any transition into ABORT, the transient POC
entry and its two exits, the setLaunched commit into POST_LAUNCH, and
the two tick auto-transitions. -/
def allowedCommit (src dst : CtrlState) : Bool :=
  isValidTransition src dst || dst == .ABORT || dst == .POC || dst == .POST_LAUNCH ||
    (src == .POC && (dst == .ON || dst == .OFF)) ||
    (src == .ON && dst == .RTL) || (src == .RTL && dst == .ON)

/-- Weapon kinds (EN_WPN_KIND). -/
inductive WeaponKind
  | ALM
  | ASM
  | AAM
  | WGT
  | MMine
  | NA
deriving DecidableEq, Repr

/-- A geodetic position with one vertical coordinate, standing for the
ST_WEAPON_WAYPOINT / ST_3D_GEODETIC_POSITION / SGEODETIC_POSITION
records (latitude and longitude in degrees, the vertical field being
the depth or altitude of the corresponding record). -/
structure Geo where
  lat : ℚ
  lon : ℚ
  vert : ℚ
deriving DecidableEq, Repr

/-- TRKMGR_SYSTEMTARGET_INFO as consumed by updateTargetInfo: the
system target id and the geodetic position (vert = depth). -/
structure TargetTrack where
  id : Nat
  pos : Geo
deriving DecidableEq, Repr

/-- EngagementPlanResult, restricted to the fields the embedded code
reads or writes. -/
structure EngagementPlanResult where
  tubeNumber : Nat
  kind : WeaponKind
  isValid : Bool
  totalTime : ℚ
  trajectory : List Geo
  launchPosition : Geo
  targetPosition : Geo
deriving DecidableEq, Repr

/-- A default-constructed EngagementPlanResult. -/
def emptyPlanResult : EngagementPlanResult :=
  { tubeNumber := 0
    kind := .NA
    isValid := false
    totalTime := 0
    trajectory := []
    launchPosition := ⟨0, 0, 0⟩
    targetPosition := ⟨0, 0, 0⟩ }

/-- The placeholder total flight times of the concrete missile
trajectory stubs (ALM 100 s, ASM 80 s, AAM 60 s). -/
def missileTotalTime : WeaponKind → ℚ
  | .ALM => 100
  | .ASM => 80
  | .AAM => 60
  | _ => 0

/-- The state of a MissileEngagementManagerBase (with the concrete
ALM/ASM/AAM trajectory stub selected by the kind field). -/
structure MissileManager where
  tubeNumber : Nat
  kind : WeaponKind
  systemTargetId : Nat
  targetPosition : Geo
  targetInfo : TargetTrack
  hasValidTarget : Bool
  waypoints : List Geo
  launchPosition : Geo
  result : EngagementPlanResult
deriving DecidableEq, Repr

/-- A freshly constructed missile engagement manager of the given
kind: no system target, zero target position, no valid target. -/
def initialMissileManager (k : WeaponKind) : MissileManager :=
  { tubeNumber := 0
    kind := k
    systemTargetId := 0
    targetPosition := ⟨0, 0, 0⟩
    targetInfo := ⟨0, ⟨0, 0, 0⟩⟩
    hasValidTarget := false
    waypoints := []
    launchPosition := ⟨0, 0, 0⟩
    result := emptyPlanResult }

/-- The calculateTrajectory stubs of ALM/ASM/AAMEngagementManager:
validity mirrors hasValidTarget, the total time is the per-kind
constant, and with a valid target the trajectory is the two-point path
from the launch position to the target. -/
def MissileManager.calculateTrajectory (m : MissileManager) : MissileManager :=
  let r := { m.result with
      isValid := m.hasValidTarget
      totalTime := missileTotalTime m.kind
      tubeNumber := m.tubeNumber
      kind := m.kind }
  let r := if m.hasValidTarget then
      { r with
          targetPosition := m.targetPosition
          trajectory := [m.launchPosition, m.targetPosition] }
    else r
  { m with result := r }

/-- MissileEngagementManagerBase::calculateEngagementPlan: without a
valid target, mark the result invalid and fail; otherwise run the
trajectory computation. -/
def MissileManager.calculateEngagementPlan (m : MissileManager) :
    OpResult × MissileManager :=
  if m.hasValidTarget = false then
    (.failure "No valid target set", { m with result := { m.result with isValid := false } })
  else
    (.success, m.calculateTrajectory)

/-- MissileEngagementManagerBase::setTargetPosition: store the direct
position, clear the system target id, mark the target valid and
recompute the plan. -/
def MissileManager.setTargetPosition (m : MissileManager) (p : Geo) :
    OpResult × MissileManager :=
  let m1 := { m with targetPosition := p, systemTargetId := 0, hasValidTarget := true }
  m1.calculateEngagementPlan

/-- MissileEngagementManagerBase::setSystemTarget: store the id and
invalidate the target until a matching track arrives. -/
def MissileManager.setSystemTarget (m : MissileManager) (id : Nat) :
    OpResult × MissileManager :=
  (.success, { m with systemTargetId := id, hasValidTarget := false })

/-- MissileEngagementManagerBase::updateTargetInfo: when a track for
the stored nonzero system target id arrives, adopt its position (depth
negated into altitude), mark the target valid and recompute the plan
(the Result of that recomputation is discarded by the source). -/
def MissileManager.updateTargetInfo (m : MissileManager) (t : TargetTrack) :
    MissileManager :=
  if m.systemTargetId ≠ 0 ∧ t.id = m.systemTargetId then
    let m1 := { m with
        targetInfo := t
        targetPosition := ⟨t.pos.lat, t.pos.lon, -t.pos.vert⟩
        hasValidTarget := true }
    m1.calculateEngagementPlan.2
  else m

/-- MissileEngagementManagerBase::updateWaypoints: reject more than 8
waypoints, otherwise store them and recompute the plan. -/
def MissileManager.updateWaypoints (m : MissileManager) (ws : List Geo) :
    OpResult × MissileManager :=
  if ws.length > 8 then
    (.failure "Too many waypoints for missile (max 8)", m)
  else
    let m1 := { m with waypoints := ws }
    m1.calculateEngagementPlan

/-- ST_M_MINE_PLAN_INFO: the plan number, list id, launch and drop
positions, the waypoint count and the fixed 8-slot waypoint array. -/
structure MinePlanInfo where
  planNo : Nat
  listId : Nat
  launchPos : Geo
  dropPos : Geo
  waypointCnt : Nat
  waypoints : Fin 8 → Geo

/-- The state of a MineEngagementManagerBase (with the concrete
MineEngagementManager trajectory stub). -/
structure MineManager where
  tubeNumber : Nat
  dropPlanListNumber : Nat
  dropPlanNumber : Nat
  dropPlan : MinePlanInfo
  waypoints : List Geo
  launchPosition : Geo
  result : EngagementPlanResult

/-- MineEngagementManager::calculateTrajectory: always valid, 300 s
total time, trajectory from the launch position through the waypoints
to the stored result's target (drop) position. -/
def MineManager.calculateTrajectory (g : MineManager) : MineManager :=
  let r := { g.result with
      isValid := true
      totalTime := 300
      tubeNumber := g.tubeNumber
      kind := WeaponKind.MMine
      trajectory := g.launchPosition :: (g.waypoints ++ [g.result.targetPosition]) }
  { g with result := r }

/-- MineEngagementManagerBase::calculateEngagementPlan delegates to
calculateTrajectory, which always succeeds. -/
def MineManager.calculateEngagementPlan (g : MineManager) : OpResult × MineManager :=
  (.success, g.calculateTrajectory)

/-- MineEngagementManagerBase::updateDropPlanWaypoints: reject more
than 8 waypoints; otherwise store them, mirror them and their count
into the drop-plan record (slots beyond the new count keep their old
contents), and recompute the plan. -/
def MineManager.updateDropPlanWaypoints (g : MineManager) (ws : List Geo) :
    OpResult × MineManager :=
  if ws.length > 8 then
    (.failure "Too many waypoints for mine (max 8)", g)
  else
    let g1 := { g with waypoints := ws }
    let dp := g1.dropPlan
    let dp := { dp with
        waypointCnt := ws.length
        waypoints := fun j => ws.getD j.val (dp.waypoints j) }
    let g2 := { g1 with dropPlan := dp }
    g2.calculateEngagementPlan

/-- The operations on a missile engagement manager whose interplay
determines hasValidTarget. -/
inductive MOp
  | setTargetPosition (p : Geo)
  | setSystemTarget (id : Nat)
  | updateTargetInfo (t : TargetTrack)
  | updateWaypoints (ws : List Geo)
  | calcPlan

/-- One missile-manager operation, discarding the Result value. -/
def stepMissile (m : MissileManager) : MOp → MissileManager
  | .setTargetPosition p => (m.setTargetPosition p).2
  | .setSystemTarget id => (m.setSystemTarget id).2
  | .updateTargetInfo t => m.updateTargetInfo t
  | .updateWaypoints ws => (m.updateWaypoints ws).2
  | .calcPlan => m.calculateEngagementPlan.2

/-- A sequence of missile-manager operations. -/
def runMissileOps (m : MissileManager) : List MOp → MissileManager
  | [] => m
  | op :: ops => runMissileOps (stepMissile m op) ops

/-- The targeting directive a trace of operations leaves in force,
transcribed from the specification: the most recent target-setting
call is either absent, a direct geodetic position, or a (nonzero)
system target id together with whether a corresponding track has been
received since that call. -/
inductive TargetDirective
  | noTarget
  | directPosition
  | systemTarget (id : Nat) (trackReceived : Bool)
deriving DecidableEq, Repr

/-- How one operation updates the spec-side targeting directive. -/
def directiveStep (d : TargetDirective) : MOp → TargetDirective
  | .setTargetPosition _ => .directPosition
  | .setSystemTarget id => .systemTarget id false
  | .updateTargetInfo t =>
    match d with
    | .systemTarget id r => .systemTarget id (r || (decide (id ≠ 0) && decide (t.id = id)))
    | d0 => d0
  | .updateWaypoints _ => d
  | .calcPlan => d

/-- The specification's characterisation of a valid target: a direct
geodetic position was set, or a system target id was set and a
corresponding track has since been received. -/
def specHasValidTarget (ops : List MOp) : Bool :=
  match ops.foldl directiveStep .noTarget with
  | .noTarget => false
  | .directPosition => true
  | .systemTarget _ r => r

/-- The coupling between a missile manager state and the spec-side
targeting directive: the manager's hasValidTarget and systemTargetId
fields agree with what the directive prescribes. -/
def directiveInv (m : MissileManager) : TargetDirective → Prop
  | .noTarget => m.hasValidTarget = false ∧ m.systemTargetId = 0
  | .directPosition => m.hasValidTarget = true ∧ m.systemTargetId = 0
  | .systemTarget id r => m.systemTargetId = id ∧ m.hasValidTarget = r

/-- MineDropPlanService::validatePosition: latitude within ±90,
longitude within ±180, vertical within [-1000, 10000]. -/
def validatePosition (p : Geo) : Bool :=
  if p.lat < -90 ∨ p.lat > 90 then false
  else if p.lon < -180 ∨ p.lon > 180 then false
  else if p.vert < -1000 ∨ p.vert > 10000 then false
  else true

/-- MineDropPlanService::validatePlan: nonzero plan number, valid
launch and drop positions, and valid waypoints at the indices below
both the waypoint count and the 8-slot array bound. -/
def validatePlan (plan : MinePlanInfo) : Bool :=
  if plan.planNo = 0 then false
  else if !validatePosition plan.launchPos || !validatePosition plan.dropPos then false
  else (List.finRange 8).all fun j =>
    if j.val < plan.waypointCnt then validatePosition (plan.waypoints j) else true

/-- The state of a MineDropPlanService: the bounds from the
configuration, the per-list-number file contents, and the in-memory
cache m_cachedPlans. -/
structure MineDropPlanService where
  maxPlanLists : Nat
  maxPlansPerList : Nat
  files : Nat → Option String
  cache : Nat → Option (List MinePlanInfo)

/-- A MineDropPlanService before initialization, with the default
bounds (15 lists of 15 plans), no files and an empty cache. -/
def initialService : MineDropPlanService :=
  { maxPlanLists := 15
    maxPlansPerList := 15
    files := fun _ => none
    cache := fun _ => none }

/-- MineDropPlanService::isValidPlanListNumber. -/
def isValidPlanListNumber (s : MineDropPlanService) (n : Nat) : Bool :=
  decide (1 ≤ n) && decide (n ≤ s.maxPlanLists)

/-- The file text produced by MineDropPlanService::writeJsonToFile: a
JSON object with the list number and, per plan, the persisted fields
(plan number, a derived plan name, launch latitude and longitude, drop
latitude and longitude, waypoint count).  Numeric rendering follows
Lean's rational printer rather than the C++ stream printer; the field
set and their order are the source's. -/
def writeJsonContent (planListNumber : Nat) (plans : List MinePlanInfo) : String :=
  "\x7b \x22planListNumber\x22: " ++ toString planListNumber ++
    ", \x22plans\x22: [" ++
    String.intercalate ", " (plans.map fun plan =>
      "\x7b \x22planNumber\x22: " ++ toString plan.planNo ++
        ", \x22planName\x22: \x22Plan_" ++ toString plan.planNo ++
        "\x22, \x22launchLat\x22: " ++ toString plan.launchPos.lat ++
        ", \x22launchLon\x22: " ++ toString plan.launchPos.lon ++
        ", \x22dropLat\x22: " ++ toString plan.dropPos.lat ++
        ", \x22dropLon\x22: " ++ toString plan.dropPos.lon ++
        ", \x22waypointCount\x22: " ++ toString plan.waypointCnt ++ " \x7d") ++
    "] \x7d"

/-- MineDropPlanService::readJsonFromFile: fail when the file does not
exist; otherwise the source performs no parsing at all (the body is a
placeholder) and returns a default-initialized empty plan vector
whatever the file contains. -/
def readJsonFromFile (content : Option String) : Except String (List MinePlanInfo) :=
  match content with
  | none => .error "File not found"
  | some _ => .ok []

/-- MineDropPlanService::savePlanList: validate the list number, the
list size and every plan, then write the file and update the cache
(file first, then cache). -/
def savePlanList (s : MineDropPlanService) (planListNumber : Nat)
    (plans : List MinePlanInfo) : OpResult × MineDropPlanService :=
  if isValidPlanListNumber s planListNumber = false then
    (.failure "Invalid plan list number", s)
  else if plans.length > s.maxPlansPerList then
    (.failure "Too many plans in list", s)
  else if !(plans.all validatePlan) then
    (.failure "Invalid plan in list", s)
  else
    let s1 := { s with
        files := fun n =>
          if n = planListNumber then some (writeJsonContent planListNumber plans)
          else s.files n }
    let s2 := { s1 with
        cache := fun n => if n = planListNumber then some plans else s1.cache n }
    (.success, s2)

/-- MineDropPlanService::loadPlanList: validate the list number, read
and parse the file, and on success replace the cache entry. -/
def loadPlanList (s : MineDropPlanService) (planListNumber : Nat) :
    OpResult × MineDropPlanService :=
  if isValidPlanListNumber s planListNumber = false then
    (.failure "Invalid plan list number", s)
  else
    match readJsonFromFile (s.files planListNumber) with
    | .error e => (.failure ("Failed to load plan list: " ++ e), s)
    | .ok plans =>
      (.success,
       { s with cache := fun n => if n = planListNumber then some plans else s.cache n })

/-- MineDropPlanService::getPlanList: serve the cached list, or an
empty list for an invalid or uncached number. -/
def getPlanList (s : MineDropPlanService) (planListNumber : Nat) : List MinePlanInfo :=
  if isValidPlanListNumber s planListNumber = false then []
  else
    match s.cache planListNumber with
    | some plans => plans
    | none => []

/-- The projection of a plan onto the fields persisted by
writeJsonToFile: plan number, launch latitude and longitude, drop
latitude and longitude, waypoint count. -/
def persistedFields (p : MinePlanInfo) : Nat × ℚ × ℚ × ℚ × ℚ × Nat :=
  (p.planNo, p.launchPos.lat, p.launchPos.lon, p.dropPos.lat, p.dropPos.lon, p.waypointCnt)

/-- A concrete valid mine plan (plan 7 of the round-trip scenario). -/
def samplePlan : MinePlanInfo :=
  { planNo := 7
    listId := 1
    launchPos := ⟨35, 129, 0⟩
    dropPos := ⟨36, 130, 0⟩
    waypointCnt := 1
    waypoints := fun _ => ⟨35, 130, 0⟩ }

/-- A plan that claims nine waypoints: positions are all valid but the
count exceeds the 8-slot bound. -/
def overCountPlan : MinePlanInfo :=
  { planNo := 1
    listId := 1
    launchPos := ⟨0, 0, 0⟩
    dropPos := ⟨0, 0, 0⟩
    waypointCnt := 9
    waypoints := fun _ => ⟨0, 0, 0⟩ }

/-- The launch-tube array of a LaunchTubeManager: each tube number
paired with its optionally assigned weapon. -/
structure TubeManager where
  tubes : List (Nat × Option WeaponState)

/-- One issued state-change request of emergencyStop: the tube it went
to, the requested target state, and whether the token passed along was
already cancelled at issuance. -/
structure IssuedRequest where
  tube : Nat
  target : CtrlState
  tokenCancelled : Bool
deriving DecidableEq, Repr

/-- The behaviour of the emergency token: freshly constructed, and
cancelled up front exactly when the flag is set; nothing else cancels
it during the call. -/
def emergencyToken (c : Bool) : TokenBehavior :=
  ⟨c, c, fun _ => c⟩

/-- The per-tube loop of LaunchTubeManager::emergencyStop: skip
unassigned tubes; for an assigned tube read the weapon state, pick
ABORT when it is LAUNCH and OFF otherwise, cancel the fresh token up
front exactly for ABORT, and issue the request.  Returns the overall
success flag, the updated tubes and the issued requests. -/
def emergencyStopTubes : List (Nat × Option WeaponState) →
    Bool × List (Nat × Option WeaponState) × List IssuedRequest
  | [] => (true, [], [])
  | (n, none) :: rest =>
    let q := emergencyStopTubes rest
    (q.1, (n, none) :: q.2.1, q.2.2)
  | (n, some w) :: rest =>
    let target := if w.state = .LAUNCH then CtrlState.ABORT else CtrlState.OFF
    let tokenCancelled := decide (target = CtrlState.ABORT)
    let out := requestStateChange w target (emergencyToken tokenCancelled)
    let q := emergencyStopTubes rest
    (q.1 && out.1.isSuccess, (n, some out.2.1) :: q.2.1,
     ⟨n, target, tokenCancelled⟩ :: q.2.2)

/-- LaunchTubeManager::emergencyStop: run the loop over all tubes and
report overall success or a partial failure. -/
def emergencyStop (m : TubeManager) : OpResult × TubeManager × List IssuedRequest :=
  let q := emergencyStopTubes m.tubes
  (if q.1 then .success else .failure "Emergency stop partially failed", ⟨q.2.1⟩, q.2.2)

/-- C1: a state-change request targeting ABORT is accepted from every
current state and with every in-flight operation: the request path
first cancels the current-operation cancellation token (twice: once in
requestStateChange and once in processAbort), then commits the
transition to ABORT (when the state actually changes) and returns
success, without consulting the transition table. -/
theorem abort_request_always_accepted (w : WeaponState) (tok : TokenBehavior) :
    (requestStateChange w .ABORT tok).1 = .success ∧
    (requestStateChange w .ABORT tok).2.1.state = .ABORT ∧
    (requestStateChange w .ABORT tok).2.1.curTokenCancelled = true ∧
    (requestStateChange w .ABORT tok).2.2 =
      .cancelCurrentToken :: .cancelCurrentToken ::
        (if w.state = .ABORT then [] else [.stateCommit w.state .ABORT]) := by
  by_cases h : w.state = .ABORT <;>
    simp [requestStateChange, processAbort, setState, h]

/-- C10: an external requestStateChange whose target is RTL, POC or
POST_LAUNCH is rejected as an invalid transition from every current
state, leaving the weapon untouched and publishing nothing, because
none of these states is a target in the transition table and only
ABORT is special-cased. -/
theorem internal_target_states_rejected (w : WeaponState) (tok : TokenBehavior)
    (target : CtrlState)
    (h : target = .RTL ∨ target = .POC ∨ target = .POST_LAUNCH) :
    requestStateChange w target tok =
      (.failure ("Invalid transition from " ++ stateToString w.state ++
          " to " ++ stateToString target), w, []) ∧
    (∀ src, isValidTransition src target = false) := by
  have hval : ∀ src, isValidTransition src target = false := by
    rcases h with h | h | h <;> subst h <;> intro src <;> cases src <;> decide
  rcases h with h | h | h <;> subst h <;>
    exact ⟨by simp [requestStateChange, hval w.state], hval⟩

/-- Witness for internal_target_states_rejected at the initial weapon
and target RTL. -/
theorem internal_target_states_rejected_witness :
    requestStateChange initialWeapon .RTL idleToken =
      (.failure ("Invalid transition from " ++ stateToString initialWeapon.state ++
          " to " ++ stateToString .RTL), initialWeapon, []) ∧
    (∀ src, isValidTransition src .RTL = false) :=
  internal_target_states_rejected initialWeapon idleToken .RTL (Or.inl rfl)

/-- C4: an accepted ON request from OFF first commits the transient
POC state, then waits; if the token fires during the wait the final
state is OFF and the call fails with the power-on-check cancellation
message, otherwise the final state is ON and the call succeeds. -/
theorem power_on_check_behavior (w : WeaponState) (tok : TokenBehavior)
    (h : w.state = .OFF) :
    (requestStateChange w .ON tok).2.2.head? = some (.stateCommit .OFF .POC) ∧
    (tok.pocCancelled = true →
      (requestStateChange w .ON tok).1 = .failure "Power-on check cancelled" ∧
      (requestStateChange w .ON tok).2.1.state = .OFF) ∧
    (tok.pocCancelled = false →
      (requestStateChange w .ON tok).1 = .success ∧
      (requestStateChange w .ON tok).2.1.state = .ON) := by
  cases hc : tok.pocCancelled <;>
    simp [requestStateChange, processTurnOn, setState, h, hc, isValidTransition,
      transitionTargets]

/-- Witness for power_on_check_behavior: the initial weapon with an
uncancelled token reaches ON. -/
theorem power_on_check_behavior_witness :
    (requestStateChange initialWeapon .ON idleToken).1 = .success ∧
    (requestStateChange initialWeapon .ON idleToken).2.1.state = .ON :=
  (power_on_check_behavior initialWeapon idleToken rfl).2.2 rfl

/-- When no cancellation is observed at any remaining step, the launch
loop completes and performs setLaunched(true). -/
theorem runLaunchSteps_all_clear (sched : Nat → Bool) :
    ∀ (steps : List LaunchStep) (w : WeaponState) (i : Nat),
      (∀ j, j < steps.length → sched (i + j) = false) →
      runLaunchSteps sched w steps i =
        (.success, (setLaunched w true).1, (setLaunched w true).2) := by
  intro steps
  induction steps with
  | nil => intro w i _; rfl
  | cons s rest ih =>
    intro w i h
    have h0 : sched i = false := by simpa using h 0 (by simp)
    have hstep : runLaunchSteps sched w (s :: rest) i = runLaunchSteps sched w rest (i + 1) := by
      simp [runLaunchSteps, h0]
    rw [hstep]
    apply ih
    intro j hj
    have := h (j + 1) (by simpa using Nat.succ_lt_succ hj)
    simpa [Nat.add_assoc, Nat.add_comm 1 j] using this

/-- When a cancellation is observed at some remaining step, the launch
loop commits ABORT and fails with the abort message, with the weapon
otherwise as it entered the loop. -/
theorem runLaunchSteps_cancelled (sched : Nat → Bool) :
    ∀ (steps : List LaunchStep) (w : WeaponState) (i : Nat),
      (∃ j, j < steps.length ∧ sched (i + j) = true) →
      runLaunchSteps sched w steps i =
        (.failure "Launch sequence aborted", (setState w .ABORT).1, (setState w .ABORT).2) := by
  intro steps
  induction steps with
  | nil =>
    intro w i h
    obtain ⟨j, hj, _⟩ := h
    simp at hj
  | cons s rest ih =>
    intro w i h
    by_cases h0 : sched i = true
    · simp [runLaunchSteps, h0]
    · have hstep : runLaunchSteps sched w (s :: rest) i = runLaunchSteps sched w rest (i + 1) := by
        simp [runLaunchSteps, h0]
      rw [hstep]
      apply ih
      obtain ⟨j, hj, hs⟩ := h
      cases j with
      | zero => exact absurd hs (by simpa using h0)
      | succ j =>
        refine ⟨j, by simpa using Nat.lt_of_succ_lt_succ hj, ?_⟩
        have : i + 1 + j = i + (j + 1) := by omega
        rw [this]
        exact hs

/-- C3: an accepted LAUNCH request from RTL runs the launch-step list.
If the token fires before or during any step, the weapon ends in ABORT
and the call fails with the abort message while launched stays false;
if every step completes, launched becomes true, the state becomes
POST_LAUNCH, and the launched observer is notified. -/
theorem launch_sequence_behavior (w : WeaponState) (tok : TokenBehavior)
    (h1 : w.state = .RTL) (h2 : w.launched = false) :
    ((∃ j, j < w.launchSteps.length ∧ tok.stepCancelled j = true) →
      (requestStateChange w .LAUNCH tok).1 = .failure "Launch sequence aborted" ∧
      (requestStateChange w .LAUNCH tok).2.1.state = .ABORT ∧
      (requestStateChange w .LAUNCH tok).2.1.launched = false) ∧
    ((∀ j, j < w.launchSteps.length → tok.stepCancelled j = false) →
      (requestStateChange w .LAUNCH tok).1 = .success ∧
      (requestStateChange w .LAUNCH tok).2.1.launched = true ∧
      (requestStateChange w .LAUNCH tok).2.1.state = .POST_LAUNCH ∧
      WeaponEvent.launchNotify true ∈ (requestStateChange w .LAUNCH tok).2.2) := by
  obtain ⟨st, ld, fsr, ctc, od, ls⟩ := w
  simp only at h1 h2
  subst h1
  subst h2
  constructor
  · intro hex
    have hrw := runLaunchSteps_cancelled tok.stepCancelled ls
      ⟨.LAUNCH, false, fsr, tok.initialCancelled, od, ls⟩ 0 (by simpa using hex)
    simp [requestStateChange, processLaunch, isValidTransition, transitionTargets,
      setState] at hrw ⊢
    simp [hrw, setState]
  · intro hall
    have hrw := runLaunchSteps_all_clear tok.stepCancelled ls
      ⟨.LAUNCH, false, fsr, tok.initialCancelled, od, ls⟩ 0 (by simpa using hall)
    simp [requestStateChange, processLaunch, isValidTransition, transitionTargets,
      setState] at hrw ⊢
    simp [hrw, setLaunched, setState]

/-- Witness for launch_sequence_behavior: from RTL with a token firing
at step 0 the launch aborts, and with an idle token it completes. -/
theorem launch_sequence_behavior_witness :
    ((requestStateChange { initialWeapon with state := .RTL } .LAUNCH
        ⟨false, false, fun _ => true⟩).1 = .failure "Launch sequence aborted" ∧
      (requestStateChange { initialWeapon with state := .RTL } .LAUNCH
        ⟨false, false, fun _ => true⟩).2.1.state = .ABORT ∧
      (requestStateChange { initialWeapon with state := .RTL } .LAUNCH
        ⟨false, false, fun _ => true⟩).2.1.launched = false) ∧
    ((requestStateChange { initialWeapon with state := .RTL } .LAUNCH idleToken).1 = .success ∧
      (requestStateChange { initialWeapon with state := .RTL } .LAUNCH
        idleToken).2.1.launched = true ∧
      (requestStateChange { initialWeapon with state := .RTL } .LAUNCH
        idleToken).2.1.state = .POST_LAUNCH ∧
      WeaponEvent.launchNotify true ∈
        (requestStateChange { initialWeapon with state := .RTL } .LAUNCH idleToken).2.2) :=
  ⟨(launch_sequence_behavior { initialWeapon with state := .RTL }
      ⟨false, false, fun _ => true⟩ rfl rfl).1 ⟨0, by decide, rfl⟩,
   (launch_sequence_behavior { initialWeapon with state := .RTL }
      idleToken rfl rfl).2 (fun _ _ => rfl)⟩

/-- Every event published by setState is the commit of the state it
replaced into the state it installed. -/
theorem setState_events (w : WeaponState) (n : CtrlState) :
    ∀ e ∈ (setState w n).2, e = WeaponEvent.stateCommit w.state n := by
  intro e he
  by_cases h : w.state = n
  · simp [setState, h] at he
  · simp [setState, h] at he
    exact he

/-- Every commit published by setLaunched targets POST_LAUNCH. -/
theorem setLaunched_commits (w : WeaponState) (b : Bool) :
    ∀ src dst, WeaponEvent.stateCommit src dst ∈ (setLaunched w b).2 →
      dst = .POST_LAUNCH := by
  intro src dst h
  by_cases h1 : w.launched = b
  · simp [setLaunched, h1] at h
  · cases b
    · simp [setLaunched, h1] at h
    · simp [setLaunched, h1] at h
      have := setState_events { w with launched := true } .POST_LAUNCH _ h
      simpa using congrArg (fun e => match e with
        | WeaponEvent.stateCommit _ d => d
        | _ => CtrlState.OFF) this

/-- Every commit published by the launch-step loop targets ABORT or
POST_LAUNCH. -/
theorem runLaunchSteps_commits (sched : Nat → Bool) :
    ∀ (steps : List LaunchStep) (w : WeaponState) (i : Nat) (src dst : CtrlState),
      WeaponEvent.stateCommit src dst ∈ (runLaunchSteps sched w steps i).2.2 →
      dst = .ABORT ∨ dst = .POST_LAUNCH := by
  intro steps
  induction steps with
  | nil =>
    intro w i src dst h
    simp [runLaunchSteps] at h
    exact Or.inr (setLaunched_commits w true src dst h)
  | cons s rest ih =>
    intro w i src dst h
    by_cases h0 : sched i
    · simp [runLaunchSteps, h0] at h
      have := setState_events w .ABORT _ h
      exact Or.inl (by simpa using congrArg (fun e => match e with
        | WeaponEvent.stateCommit _ d => d
        | _ => CtrlState.OFF) this)
    · simp [runLaunchSteps, h0] at h
      exact ih w (i + 1) src dst h

/-- Transitions into ABORT are always in the classified set. -/
theorem allowedCommit_abort (src : CtrlState) : allowedCommit src .ABORT = true := by
  cases src <;> decide

/-- Transitions into POC are always in the classified set. -/
theorem allowedCommit_poc (src : CtrlState) : allowedCommit src .POC = true := by
  cases src <;> decide

/-- Transitions into POST_LAUNCH are always in the classified set. -/
theorem allowedCommit_postLaunch (src : CtrlState) :
    allowedCommit src .POST_LAUNCH = true := by
  cases src <;> decide

/-- Table transitions are in the classified set. -/
theorem allowedCommit_of_valid (src dst : CtrlState)
    (h : isValidTransition src dst = true) : allowedCommit src dst = true := by
  simp [allowedCommit, h]

/-- Every commit published by processAbort targets ABORT. -/
theorem processAbort_commits (w : WeaponState) :
    ∀ src dst, WeaponEvent.stateCommit src dst ∈ (processAbort w).2.2 →
      dst = .ABORT := by
  intro src dst h
  simp only [processAbort, List.mem_cons] at h
  rcases h with h | h
  · exact absurd h (by simp)
  · have := setState_events _ .ABORT _ h
    simpa using congrArg (fun e => match e with
      | WeaponEvent.stateCommit _ d => d
      | _ => CtrlState.OFF) this

/-- Every commit published by processTurnOff is the commit of the
entry state into OFF. -/
theorem processTurnOff_commits (w : WeaponState) :
    ∀ src dst, WeaponEvent.stateCommit src dst ∈ (processTurnOff w).2.2 →
      src = w.state ∧ dst = .OFF := by
  intro src dst h
  simp only [processTurnOff, List.mem_cons] at h
  rcases h with h | h
  · exact absurd h (by simp)
  · have := setState_events _ .OFF _ h
    simpa using And.intro
      (congrArg (fun e => match e with
        | WeaponEvent.stateCommit s _ => s
        | _ => CtrlState.OFF) this)
      (congrArg (fun e => match e with
        | WeaponEvent.stateCommit _ d => d
        | _ => CtrlState.OFF) this)

/-- Every commit published by processTurnOn enters POC or leaves it. -/
theorem processTurnOn_commits (w : WeaponState) (tok : TokenBehavior) :
    ∀ src dst, WeaponEvent.stateCommit src dst ∈ (processTurnOn w tok).2.2 →
      dst = .POC ∨ (src = .POC ∧ (dst = .ON ∨ dst = .OFF)) := by
  intro src dst h
  by_cases hc : tok.pocCancelled <;>
    simp only [processTurnOn, hc, if_true, if_false, Bool.false_eq_true,
      List.mem_append] at h <;>
    rcases h with h | h
  · have := setState_events _ .POC _ h
    exact Or.inl (by simpa using congrArg (fun e => match e with
      | WeaponEvent.stateCommit _ d => d
      | _ => CtrlState.OFF) this)
  · have := setState_events _ .OFF _ h
    have hs : src = (setState w .POC).1.state ∧ dst = .OFF := by
      simpa using And.intro
        (congrArg (fun e => match e with
          | WeaponEvent.stateCommit s _ => s
          | _ => CtrlState.OFF) this)
        (congrArg (fun e => match e with
          | WeaponEvent.stateCommit _ d => d
          | _ => CtrlState.OFF) this)
    exact Or.inr ⟨by simpa [setState] using hs.1, Or.inr hs.2⟩
  · have := setState_events _ .POC _ h
    exact Or.inl (by simpa using congrArg (fun e => match e with
      | WeaponEvent.stateCommit _ d => d
      | _ => CtrlState.OFF) this)
  · have := setState_events _ .ON _ h
    have hs : src = (setState w .POC).1.state ∧ dst = .ON := by
      simpa using And.intro
        (congrArg (fun e => match e with
          | WeaponEvent.stateCommit s _ => s
          | _ => CtrlState.OFF) this)
        (congrArg (fun e => match e with
          | WeaponEvent.stateCommit _ d => d
          | _ => CtrlState.OFF) this)
    exact Or.inr ⟨by simpa [setState] using hs.1, Or.inl hs.2⟩

/-- Every commit published by processLaunch is the entry into LAUNCH
or targets ABORT or POST_LAUNCH. -/
theorem processLaunch_commits (w : WeaponState) (tok : TokenBehavior) :
    ∀ src dst, WeaponEvent.stateCommit src dst ∈ (processLaunch w tok).2.2 →
      (src = w.state ∧ dst = .LAUNCH) ∨ dst = .ABORT ∨ dst = .POST_LAUNCH := by
  intro src dst h
  simp only [processLaunch, List.mem_append] at h
  rcases h with h | h
  · have heq := setState_events _ .LAUNCH _ h
    injection heq with h1 h2
    exact Or.inl ⟨h1, h2⟩
  · exact Or.inr (runLaunchSteps_commits tok.stepCancelled _ _ _ src dst h)

/-- Every commit published by one requestStateChange call is in the
classified set. -/
theorem requestStateChange_commits (w : WeaponState) (target : CtrlState)
    (tok : TokenBehavior) :
    ∀ src dst, WeaponEvent.stateCommit src dst ∈ (requestStateChange w target tok).2.2 →
      allowedCommit src dst = true := by
  intro src dst h
  by_cases ha : target = .ABORT
  · subst ha
    simp only [requestStateChange, if_true, List.mem_cons, reduceIte] at h
    rcases h with h | h
    · exact absurd h (by simp)
    · have := processAbort_commits _ src dst (by simpa using h)
      rw [this]
      exact allowedCommit_abort src
  · by_cases hv : isValidTransition w.state target = true
    · have hreq : (requestStateChange w target tok).2.2 =
          (match target with
            | CtrlState.OFF =>
              processTurnOff { w with curTokenCancelled := tok.initialCancelled }
            | CtrlState.ON =>
              processTurnOn { w with curTokenCancelled := tok.initialCancelled } tok
            | CtrlState.LAUNCH =>
              processLaunch { w with curTokenCancelled := tok.initialCancelled } tok
            | _ =>
              let out := setState { w with curTokenCancelled := tok.initialCancelled } target
              (OpResult.success, out.1, out.2)).2.2 := by
        simp [requestStateChange, ha, hv]
      rw [hreq] at h
      cases target with
      | OFF =>
        have := processTurnOff_commits _ src dst h
        rw [this.1, this.2]
        simpa using allowedCommit_of_valid w.state .OFF hv
      | ON =>
        rcases processTurnOn_commits _ tok src dst h with hd | ⟨hs, hd⟩
        · rw [hd]; exact allowedCommit_poc src
        · rcases hd with hd | hd <;> rw [hs, hd] <;> decide
      | LAUNCH =>
        rcases processLaunch_commits _ tok src dst h with ⟨hs, hd⟩ | hd | hd
        · rw [hs, hd]
          simpa using allowedCommit_of_valid w.state .LAUNCH hv
        · rw [hd]; exact allowedCommit_abort src
        · rw [hd]; exact allowedCommit_postLaunch src
      | ABORT => exact absurd rfl ha
      | POC =>
        have := setState_events _ .POC _ (by simpa using h)
        simp at this
        rw [this.2]
        exact allowedCommit_poc src
      | RTL =>
        have := setState_events _ .RTL _ (by simpa using h)
        simp at this
        rw [this.1, this.2]
        simpa using allowedCommit_of_valid w.state .RTL hv
      | POST_LAUNCH =>
        have := setState_events _ .POST_LAUNCH _ (by simpa using h)
        simp at this
        rw [this.2]
        exact allowedCommit_postLaunch src
    · simp [requestStateChange, ha, hv] at h

/-- Every commit published by one weapon operation is in the
classified set. -/
theorem stepOp_commits (w : WeaponState) (op : WOp) :
    ∀ src dst, WeaponEvent.stateCommit src dst ∈ (stepOp w op).2 →
      allowedCommit src dst = true := by
  intro src dst h
  cases op with
  | request target tok => exact requestStateChange_commits w target tok src dst h
  | tickUpdate =>
    by_cases h1 : w.state = .ON
    · by_cases h2 : checkInterlockConditions w
      · simp [stepOp, update, h1, h2] at h
        have := setState_events w .RTL _ h
        simp [setState] at this
        rcases this with ⟨hs, hd⟩
        subst hs; subst hd
        rw [h1]; decide
      · simp [stepOp, update, h1, h2] at h
    · by_cases h3 : w.state = .RTL
      · by_cases h2 : checkInterlockConditions w
        · simp [stepOp, update, h1, h3, h2] at h
        · simp [stepOp, update, h1, h3, h2] at h
          have := setState_events w .ON _ h
          simp [setState] at this
          rcases this with ⟨hs, hd⟩
          subst hs; subst hd
          rw [h3]; decide
      · simp [stepOp, update, h1, h3] at h
  | opSetLaunched b =>
    have := setLaunched_commits w b src dst (by simpa [stepOp] using h)
    exact this ▸ allowedCommit_postLaunch src
  | opReset => simp [stepOp, reset] at h
  | opSetFireSolutionReady b => simp [stepOp] at h

/-- Every commit published along a run of weapon operations is in the
classified set. -/
theorem runOps_commits (ops : List WOp) :
    ∀ (w : WeaponState) (src dst : CtrlState),
      WeaponEvent.stateCommit src dst ∈ (runOps w ops).2 →
      allowedCommit src dst = true := by
  induction ops with
  | nil => intro w src dst h; simp [runOps] at h
  | cons op ops ih =>
    intro w src dst h
    simp [runOps] at h
    rcases h with h | h
    · exact stepOp_commits w op src dst h
    · exact ih _ src dst h

/-- C2 counterexample: already the first accepted ON request from the
initial weapon commits the transient transition OFF → POC, which is
neither in the transition table nor a transition into ABORT. -/
theorem commit_off_poc_outside_table :
    WeaponEvent.stateCommit .OFF .POC ∈
      (runOps initialWeapon [.request .ON idleToken]).2 ∧
    isValidTransition .OFF .POC = false ∧
    CtrlState.POC ≠ CtrlState.ABORT := by
  exact ⟨by decide, by decide, by decide⟩

/-- C2 amended: along every sequence of weapon operations from the
initial weapon, every committed transition (src, dst) is in the
transition table, or has dst ∈ {ABORT, POC, POST_LAUNCH}, or is one of
the internal transitions POC→ON, POC→OFF, ON→RTL, RTL→ON. -/
theorem reachable_commits_classified (ops : List WOp) :
    ∀ src dst, WeaponEvent.stateCommit src dst ∈ (runOps initialWeapon ops).2 →
      allowedCommit src dst = true :=
  fun src dst h => runOps_commits ops initialWeapon src dst h

/-- Witness for reachable_commits_classified on the one-request run
that commits OFF → POC. -/
theorem reachable_commits_classified_witness :
    allowedCommit .OFF .POC = true :=
  reachable_commits_classified [.request .ON idleToken] .OFF .POC (by decide)

/-- calculateEngagementPlan does not change the targeting fields of a
missile manager. -/
theorem calcPlan_preserves_target (m : MissileManager) :
    (MissileManager.calculateEngagementPlan m).2.hasValidTarget = m.hasValidTarget ∧
    (MissileManager.calculateEngagementPlan m).2.systemTargetId = m.systemTargetId := by
  by_cases hv : m.hasValidTarget = false <;>
    simp [MissileManager.calculateEngagementPlan, MissileManager.calculateTrajectory, hv]

/-- One missile-manager operation preserves the coupling with the
spec-side targeting directive. -/
theorem stepMissile_directive (m : MissileManager) (d : TargetDirective) (op : MOp)
    (h : directiveInv m d) : directiveInv (stepMissile m op) (directiveStep d op) := by
  cases op with
  | setTargetPosition p =>
    have hc := calcPlan_preserves_target
      { m with targetPosition := p, systemTargetId := 0, hasValidTarget := true }
    simp [stepMissile, MissileManager.setTargetPosition, directiveStep, directiveInv,
      hc.1, hc.2]
  | setSystemTarget id =>
    simp [stepMissile, MissileManager.setSystemTarget, directiveStep, directiveInv]
  | updateTargetInfo t =>
    cases d with
    | noTarget =>
      obtain ⟨h1, h2⟩ := h
      have hstep : stepMissile m (.updateTargetInfo t) = m := by
        simp [stepMissile, MissileManager.updateTargetInfo, h2]
      rw [show directiveStep .noTarget (.updateTargetInfo t) = .noTarget from rfl, hstep]
      exact ⟨h1, h2⟩
    | directPosition =>
      obtain ⟨h1, h2⟩ := h
      have hstep : stepMissile m (.updateTargetInfo t) = m := by
        simp [stepMissile, MissileManager.updateTargetInfo, h2]
      rw [show directiveStep .directPosition (.updateTargetInfo t) = .directPosition from
        rfl, hstep]
      exact ⟨h1, h2⟩
    | systemTarget id r =>
      obtain ⟨h1, h2⟩ := h
      by_cases hg : m.systemTargetId ≠ 0 ∧ t.id = m.systemTargetId
      · have hid : id ≠ 0 := h1 ▸ hg.1
        have htid : t.id = id := h1 ▸ hg.2
        have hstep : stepMissile m (.updateTargetInfo t) =
            ({ m with
                targetInfo := t
                targetPosition := ⟨t.pos.lat, t.pos.lon, -t.pos.vert⟩
                hasValidTarget := true } : MissileManager).calculateEngagementPlan.2 := by
          simp [stepMissile, MissileManager.updateTargetInfo, hg]
        have hc := calcPlan_preserves_target
          { m with
              targetInfo := t
              targetPosition := ⟨t.pos.lat, t.pos.lon, -t.pos.vert⟩
              hasValidTarget := true }
        have hspec : directiveStep (.systemTarget id r) (.updateTargetInfo t) =
            .systemTarget id true := by
          simp [directiveStep, hid, htid]
        rw [hspec, hstep]
        refine ⟨?_, ?_⟩
        · rw [hc.2]; exact h1
        · rw [hc.1]
      · have hfalse : (decide (id ≠ 0) && decide (t.id = id)) = false := by
          rw [← h1]
          by_cases hz : m.systemTargetId = 0
          · simp [hz]
          · simp [hz]
            intro ht
            exact absurd ⟨hz, ht⟩ hg
        have hstep : stepMissile m (.updateTargetInfo t) = m := by
          simp [stepMissile, MissileManager.updateTargetInfo, hg]
        have hspec : directiveStep (.systemTarget id r) (.updateTargetInfo t) =
            .systemTarget id (r || (decide (id ≠ 0) && decide (t.id = id))) := rfl
        rw [hspec, hstep, hfalse]
        simpa using ⟨h1, h2⟩
  | updateWaypoints ws =>
    by_cases hl : ws.length > 8
    · cases d <;>
        simpa [stepMissile, MissileManager.updateWaypoints, hl, directiveStep,
          directiveInv] using h
    · have hc := calcPlan_preserves_target { m with waypoints := ws }
      cases d <;>
        simpa [stepMissile, MissileManager.updateWaypoints, hl, directiveStep,
          directiveInv, hc.1, hc.2] using h
  | calcPlan =>
    have hc := calcPlan_preserves_target m
    cases d <;>
      simpa [stepMissile, directiveStep, directiveInv, hc.1, hc.2] using h

/-- A run of missile-manager operations preserves the coupling with
the spec-side targeting directive. -/
theorem runMissileOps_directive (ops : List MOp) :
    ∀ (m : MissileManager) (d : TargetDirective), directiveInv m d →
      directiveInv (runMissileOps m ops) (ops.foldl directiveStep d) := by
  induction ops with
  | nil => intro m d h; simpa [runMissileOps] using h
  | cons op ops ih =>
    intro m d h
    simpa [runMissileOps, List.foldl] using ih _ _ (stepMissile_directive m d op h)

/-- C6: a missile engagement manager without a valid target fails
calculateEngagementPlan with the no-target error and marks the stored
result invalid, changing nothing else; and along every run of manager
operations, hasValidTarget is exactly the specification's predicate: a
direct position was set, or a system target id was set and a
corresponding track has since been received. -/
theorem missile_target_validity (k : WeaponKind) :
    (∀ m : MissileManager, m.hasValidTarget = false →
      (MissileManager.calculateEngagementPlan m).1 = .failure "No valid target set" ∧
      (MissileManager.calculateEngagementPlan m).2 =
        { m with result := { m.result with isValid := false } }) ∧
    (∀ ops : List MOp,
      (runMissileOps (initialMissileManager k) ops).hasValidTarget =
        specHasValidTarget ops) := by
  constructor
  · intro m hm
    simp [MissileManager.calculateEngagementPlan, hm]
  · intro ops
    have h0 : directiveInv (initialMissileManager k) .noTarget := by
      simp [directiveInv, initialMissileManager]
    have hinv := runMissileOps_directive ops (initialMissileManager k) .noTarget h0
    unfold specHasValidTarget
    cases hd : ops.foldl directiveStep .noTarget with
    | noTarget => rw [hd] at hinv; exact hinv.1
    | directPosition => rw [hd] at hinv; exact hinv.1
    | systemTarget id r => rw [hd] at hinv; exact hinv.2

/-- Witness for missile_target_validity: the fresh ALM manager has no
valid target and calculateEngagementPlan fails accordingly; and on a
concrete trace that sets system target 42 and then receives the
matching track, hasValidTarget agrees with the specification. -/
theorem missile_target_validity_witness :
    (MissileManager.calculateEngagementPlan (initialMissileManager .ALM)).1 =
      .failure "No valid target set" ∧
    (runMissileOps (initialMissileManager .ASM)
        [.setSystemTarget 42, .updateTargetInfo ⟨42, ⟨1, 2, 3⟩⟩]).hasValidTarget =
      specHasValidTarget [.setSystemTarget 42, .updateTargetInfo ⟨42, ⟨1, 2, 3⟩⟩] :=
  ⟨((missile_target_validity .ALM).1 (initialMissileManager .ALM) rfl).1,
   (missile_target_validity .ASM).2 _⟩

/-- C7: for both the missile and the mine manager, a waypoint update
with more than 8 entries fails with the too-many-waypoints error and
leaves the manager (stored waypoints and engagement-plan result)
unchanged; a list of exactly 8 waypoints is accepted and stored. -/
theorem waypoint_capacity_enforced (m : MissileManager) (g : MineManager)
    (ws : List Geo) :
    (8 < ws.length →
      MissileManager.updateWaypoints m ws =
        (.failure "Too many waypoints for missile (max 8)", m) ∧
      MineManager.updateDropPlanWaypoints g ws =
        (.failure "Too many waypoints for mine (max 8)", g)) ∧
    (ws.length = 8 →
      (MissileManager.updateWaypoints m ws).2.waypoints = ws ∧
      (MissileManager.updateWaypoints m ws).1 ≠
        .failure "Too many waypoints for missile (max 8)" ∧
      (MineManager.updateDropPlanWaypoints g ws).2.waypoints = ws ∧
      (MineManager.updateDropPlanWaypoints g ws).1 = .success) := by
  constructor
  · intro h
    constructor
    · simp [MissileManager.updateWaypoints, h]
    · simp [MineManager.updateDropPlanWaypoints, h]
  · intro h
    have h8 : ¬ ws.length > 8 := by omega
    refine ⟨?_, ?_, ?_, ?_⟩
    · by_cases hv : m.hasValidTarget = false <;>
        simp [MissileManager.updateWaypoints, h8, MissileManager.calculateEngagementPlan,
          MissileManager.calculateTrajectory, hv]
    · by_cases hv : m.hasValidTarget = false <;>
        simp [MissileManager.updateWaypoints, h8, MissileManager.calculateEngagementPlan,
          MissileManager.calculateTrajectory, hv]
    · simp [MineManager.updateDropPlanWaypoints, h8, MineManager.calculateEngagementPlan,
        MineManager.calculateTrajectory]
    · simp [MineManager.updateDropPlanWaypoints, h8, MineManager.calculateEngagementPlan,
        MineManager.calculateTrajectory]

/-- Witness for waypoint_capacity_enforced: nine zero waypoints are
rejected by both managers with the state unchanged, and eight are
accepted. -/
theorem waypoint_capacity_enforced_witness :
    (MissileManager.updateWaypoints (initialMissileManager .ALM)
        (List.replicate 9 ⟨0, 0, 0⟩) =
      (.failure "Too many waypoints for missile (max 8)", initialMissileManager .ALM)) ∧
    ((MissileManager.updateWaypoints (initialMissileManager .ALM)
        (List.replicate 8 ⟨0, 0, 0⟩)).2.waypoints = List.replicate 8 ⟨0, 0, 0⟩) :=
  ⟨((waypoint_capacity_enforced (initialMissileManager .ALM)
      { tubeNumber := 0, dropPlanListNumber := 0, dropPlanNumber := 0,
        dropPlan := overCountPlan, waypoints := [], launchPosition := ⟨0, 0, 0⟩,
        result := emptyPlanResult }
      (List.replicate 9 ⟨0, 0, 0⟩)).1 (by simp)).1,
   ((waypoint_capacity_enforced (initialMissileManager .ALM)
      { tubeNumber := 0, dropPlanListNumber := 0, dropPlanNumber := 0,
        dropPlan := overCountPlan, waypoints := [], launchPosition := ⟨0, 0, 0⟩,
        result := emptyPlanResult }
      (List.replicate 8 ⟨0, 0, 0⟩)).2 (by simp)).1⟩

/-- C8 counterexample: validatePlan accepts a plan whose waypoint
count is 9, so a waypoint count above 8 is not rejected. -/
theorem validatePlan_accepts_overcount :
    validatePlan overCountPlan = true ∧ 8 < overCountPlan.waypointCnt := by
  constructor
  · decide
  · decide

/-- C8 amended: validatePlan accepts a plan exactly when its plan
number is nonzero, its launch and drop positions are valid, and every
waypoint at an index below both the waypoint count and the 8-slot
array bound is valid; the waypoint count itself is not bounded. -/
theorem validatePlan_characterization (plan : MinePlanInfo) :
    validatePlan plan = true ↔
      (plan.planNo ≠ 0 ∧ validatePosition plan.launchPos = true ∧
        validatePosition plan.dropPos = true ∧
        ∀ j : Fin 8, j.val < plan.waypointCnt →
          validatePosition (plan.waypoints j) = true) := by
  unfold validatePlan
  by_cases h0 : plan.planNo = 0
  · simp [h0]
  · rw [if_neg h0]
    by_cases hl : validatePosition plan.launchPos = true
    · by_cases hd : validatePosition plan.dropPos = true
      · rw [if_neg (by simp [hl, hd])]
        rw [List.all_eq_true]
        constructor
        · intro hall
          refine ⟨h0, hl, hd, ?_⟩
          intro j hj
          have := hall j (List.mem_finRange j)
          rwa [if_pos hj] at this
        · rintro ⟨-, -, -, hall⟩
          intro j _
          by_cases hj : j.val < plan.waypointCnt
          · rw [if_pos hj]; exact hall j hj
          · rw [if_neg hj]
      · have hcond : (!validatePosition plan.launchPos ||
            !validatePosition plan.dropPos) = true := by
          simp only [Bool.not_eq_true] at hd
          simp [hd]
        rw [if_pos hcond]
        simp only [Bool.not_eq_true] at hd
        simp [hd]
    · have hcond : (!validatePosition plan.launchPos ||
          !validatePosition plan.dropPos) = true := by
        simp only [Bool.not_eq_true] at hl
        simp [hl]
      rw [if_pos hcond]
      simp only [Bool.not_eq_true] at hl
      simp [hl]

/-- C5: saving a one-plan list succeeds and the following load also
reports success, but the loaded list is empty rather than the saved
plans: readJsonFromFile never parses the file, so the round trip on
the persisted fields fails for any non-empty plan list. -/
theorem save_load_roundtrip_fails :
    (savePlanList initialService 1 [samplePlan]).1 = OpResult.success ∧
    (loadPlanList (savePlanList initialService 1 [samplePlan]).2 1).1 = OpResult.success ∧
    (getPlanList (loadPlanList (savePlanList initialService 1 [samplePlan]).2 1).2 1).map
        persistedFields = [] ∧
    [samplePlan].map persistedFields =
      [(7, (35 : ℚ), (129 : ℚ), (36 : ℚ), (130 : ℚ), 1)] := by
  refine ⟨?_, ?_, ?_, ?_⟩
  · decide
  · decide
  · decide
  · decide

/-- The issued-request list of the emergencyStop loop, one request per
assigned tube. -/
theorem emergencyStopTubes_requests (l : List (Nat × Option WeaponState)) :
    (emergencyStopTubes l).2.2 =
      l.filterMap (fun t => t.2.map (fun w =>
        ⟨t.1, if w.state = .LAUNCH then CtrlState.ABORT else CtrlState.OFF,
         decide (w.state = .LAUNCH)⟩)) := by
  induction l with
  | nil => rfl
  | cons t rest ih =>
    obtain ⟨n, ow⟩ := t
    cases ow with
    | none => simp [emergencyStopTubes, ih]
    | some w =>
      by_cases hw : w.state = .LAUNCH <;> simp [emergencyStopTubes, ih, hw]

/-- C9: emergencyStop issues to each assigned tube exactly one
state-change request, in tube order: ABORT when the tube's weapon is
currently in LAUNCH and OFF otherwise; and the token passed with a
request is pre-cancelled exactly when the request is ABORT. -/
theorem emergency_stop_requests (m : TubeManager) :
    (emergencyStop m).2.2 =
      m.tubes.filterMap (fun t => t.2.map (fun w =>
        ⟨t.1, if w.state = .LAUNCH then CtrlState.ABORT else CtrlState.OFF,
         decide (w.state = .LAUNCH)⟩)) ∧
    ∀ r ∈ (emergencyStop m).2.2, (r.tokenCancelled = true ↔ r.target = .ABORT) := by
  have hreq : (emergencyStop m).2.2 = (emergencyStopTubes m.tubes).2.2 := by
    simp [emergencyStop]
  rw [hreq, emergencyStopTubes_requests m.tubes]
  refine ⟨rfl, ?_⟩
  intro r hr
  simp only [List.mem_filterMap] at hr
  obtain ⟨⟨n, ow⟩, _, hmap⟩ := hr
  cases ow with
  | none => simp at hmap
  | some w =>
    simp only [Option.map_some] at hmap
    injection hmap with hmap
    subst hmap
    by_cases hw : w.state = .LAUNCH <;> simp [hw]

/-- Witness for emergency_stop_requests: a manager with one tube whose
weapon is mid-LAUNCH gets exactly the pre-cancelled ABORT request. -/
theorem emergency_stop_requests_witness :
    ((IssuedRequest.mk 1 CtrlState.ABORT true).tokenCancelled = true ↔
      (IssuedRequest.mk 1 CtrlState.ABORT true).target = .ABORT) :=
  (emergency_stop_requests
      ⟨[(1, some { initialWeapon with state := .LAUNCH })]⟩).2
    ⟨1, .ABORT, true⟩ (by decide)

end WeaponControl
